import Mathlib

/-!
Verification of the find-my-ping extension's core logic
(`src/extensions/find-my-ping/src/devices.tsx`).

The TypeScript source is shallowly embedded below.  JavaScript string
primitives (`split("+")`, `toLowerCase`, `trim`, `startsWith("f")`,
`parseFloat`) are modelled as executable Lean functions over `String.data`
(per-character, ASCII-faithful).  Numbers flowing through `parseFloat` are
modelled as exact rationals (`ℚ`); IEEE-754 rounding is idealized away,
which is irrelevant for the comparisons with `0` and `10` performed here.
Effectful code (`pingDevice`, `simulateKeybind`) is modelled as pure
functions producing the trace of observable effects (toasts, window
closing, countdown steps and automation-bridge invocations), parameterized
by the outcome of the single bridge call.
-/

set_option autoImplicit false

namespace FindMyPing

/-! ### JavaScript string primitives -/

/-- Embeds `s.toLowerCase()`: per-character lowering of the string. -/
def jsToLower (s : String) : String := ⟨s.data.map Char.toLower⟩

/-- Embeds `s.trim()`: strips whitespace from both ends. -/
def jsTrim (s : String) : String :=
  ⟨(((s.data.dropWhile Char.isWhitespace).reverse).dropWhile Char.isWhitespace).reverse⟩

/-- Splits a character list at every occurrence of the character `'+'`.
Embeds `s.split("+")`: the result is never empty, and splitting the empty
string yields `[[]]`, matching JavaScript where `"".split("+") = [""]`. -/
def splitOnPlus : List Char → List (List Char)
  | [] => [[]]
  | c :: rest =>
    let r := splitOnPlus rest
    if c = '+' then [] :: r
    else
      match r with
      | [] => [[c]]
      | t :: ts => (c :: t) :: ts

/-- Embeds `s.split("+")` on strings. -/
def jsSplit (s : String) : List String := (splitOnPlus s.data).map String.mk

/-- Embeds `s.startsWith("f")` for the fixed one-character argument `"f"`. -/
def jsStartsWithF (s : String) : Bool := s.data.head? == some 'f'

/-! ### parseHotkey (devices.tsx lines 30-41) -/

/-- Result of `parseHotkey`: the key token and the rendered modifier list. -/
structure Hotkey where
  key : String
  modifiers : List String
  deriving Repr, DecidableEq

/-- The fixed modifier table of `parseHotkey`
(`cmd→command`, `ctrl→control`, `opt→option`, `shift→shift`). -/
def modifierMap (m : String) : Option String :=
  if m = "cmd" then some "command"
  else if m = "ctrl" then some "control"
  else if m = "opt" then some "option"
  else if m = "shift" then some "shift"
  else none

/-- Embeds `modifierMap[m] || m`: table lookup with verbatim fallback. -/
def canonicalModifier (m : String) : String := (modifierMap m).getD m

/-- Embeds the template `` `${modifierMap[m] || m} down` ``. -/
def mapModifier (m : String) : String := canonicalModifier m ++ " down"

/-- Embeds `parseHotkey`: split on `+`, last token is the key, the
preceding tokens are mapped through the modifier table and rendered. -/
def parseHotkey (hotkey : String) : Hotkey :=
  let parts := jsSplit hotkey
  { key := parts.getLastD "", modifiers := parts.dropLast.map mapModifier }

/-! ### sanitizeForAppleScript (devices.tsx lines 43-45) -/

/-- Left-to-right scan embedding `input.replace(/[\\"]/g, "\\$&")`:
each backslash or double quote is replaced by a backslash followed by
the character itself. -/
def sanitizeAux : List Char → List Char
  | [] => []
  | c :: cs =>
    if c = '\\' ∨ c = '"' then '\\' :: c :: sanitizeAux cs
    else c :: sanitizeAux cs

/-- Embeds `sanitizeForAppleScript`. -/
def sanitizeForAppleScript (input : String) : String := ⟨sanitizeAux input.data⟩

/-! ### parseFloat and validateDelay (devices.tsx lines 47-53) -/

/-- Takes the longest prefix of decimal digits, returning it and the rest. -/
def takeDigits : List Char → List Char × List Char
  | [] => ([], [])
  | c :: cs =>
    if c.isDigit then
      let (ds, r) := takeDigits cs
      (c :: ds, r)
    else ([], c :: cs)

/-- Numeric value of a digit string. -/
def digitsToNat (ds : List Char) : Nat :=
  ds.foldl (fun a c => 10 * a + (c.toNat - Char.toNat '0')) 0

/-- Embeds JavaScript `parseFloat`: skips leading whitespace, reads an
optional sign, a digit string with optional fractional part, and an
optional exponent; returns `none` (modelling `NaN`) when no digits are
found.  The value `sign * (ip.fp) * 10^exp` is built as one exact
fraction (`ℚ`); IEEE-754 rounding and the `Infinity` literal are not
modelled. -/
def jsParseFloat (s : String) : Option ℚ :=
  let cs := s.data.dropWhile Char.isWhitespace
  let (sign, cs₁) : Int × List Char :=
    match cs with
    | '-' :: r => (-1, r)
    | '+' :: r => (1, r)
    | r => (1, r)
  let (ip, cs₂) := takeDigits cs₁
  let (fp, cs₃) :=
    match cs₂ with
    | '.' :: r => takeDigits r
    | r => ([], r)
  if ip.isEmpty ∧ fp.isEmpty then none
  else
    let exp : Int :=
      match cs₃ with
      | e :: r =>
        if e = 'e' ∨ e = 'E' then
          let (esign, r₂) : Int × List Char :=
            match r with
            | '-' :: r₃ => (-1, r₃)
            | '+' :: r₃ => (1, r₃)
            | r₃ => (1, r₃)
          let (eds, _) := takeDigits r₂
          if eds.isEmpty then 0 else esign * digitsToNat eds
        else 0
      | [] => 0
    let num : Int := sign * (digitsToNat ip * 10 ^ fp.length + digitsToNat fp)
    if 0 ≤ exp then some (mkRat (num * 10 ^ exp.toNat) (10 ^ fp.length))
    else some (mkRat num (10 ^ fp.length * 10 ^ (-exp).toNat))

/-- Embeds `validateDelay`: `NaN` (unparseable), negative values and
values above `10` are rejected, in that order. -/
def validateDelay (value : String) : Option String :=
  match jsParseFloat value with
  | none => some "Delay must be a number"
  | some num =>
    if num < 0 then some "Delay cannot be negative"
    else if num > 10 then some "Delay cannot exceed 10 seconds"
    else none

/-! ### validateKeybind (devices.tsx lines 55-77) -/

/-- The four recognized modifier abbreviations. -/
def validModifiers : List String := ["cmd", "ctrl", "opt", "shift"]

/-- The fixed supported function-key set. -/
def supportedKeys : List String :=
  ["f13", "f14", "f15", "f16", "f17", "f18", "f19", "f20"]

/-- Embeds `validateKeybind`: empty strings, strings with fewer than two
`+`-separated tokens, unrecognized modifier tokens (compared after
lowercasing, reporting the first bad one verbatim) and keys that are
neither in `supportedKeys` (after lowercasing) nor a single character are
rejected. -/
def validateKeybind (value : String) : Option String :=
  if value = "" then some "Keybind cannot be empty"
  else
    let parts := jsSplit value
    if parts.length < 2 then some "Keybind must have modifiers (e.g., cmd+f13)"
    else
      let key := jsToLower (parts.getLastD "")
      let modifiers := parts.dropLast
      match modifiers.find? (fun m => !(validModifiers.contains (jsToLower m))) with
      | some m => some ("Invalid modifier: " ++ m)
      | none =>
        if !(supportedKeys.contains key) && key.length != 1 then
          some "Key must be f13-f20 or a single character"
        else none

/-! ### validateDeviceName (devices.tsx lines 79-84) -/

/-- Character class of the regex `/[";\\]/`. -/
def badNameChar (c : Char) : Bool := c = '"' ∨ c = ';' ∨ c = '\\'

/-- Embeds `validateDeviceName`: rejects names that trim to the empty
string, names longer than 50 characters, and names containing a double
quote, a semicolon or a backslash. -/
def validateDeviceName (name : String) : Option String :=
  if jsTrim name = "" then some "Name required"
  else if name.length > 50 then some "Name too long"
  else if name.data.any badNameChar then some "Invalid characters"
  else none

/-! ### Key resolution and script generation
(devices.tsx lines 86-132 and 297-362) -/

/-- The fixed key-code table for the eight supported function keys. -/
def keycodeMap (k : String) : Option Nat :=
  if k = "f13" then some 105
  else if k = "f14" then some 107
  else if k = "f15" then some 113
  else if k = "f16" then some 106
  else if k = "f17" then some 64
  else if k = "f18" then some 79
  else if k = "f19" then some 80
  else if k = "f20" then some 90
  else none

/-- What a keybind's key resolves to during simulation: a numeric key
code, or a literal character sent as a keystroke. -/
inductive KeyAction where
  | code (n : Nat) : KeyAction
  | literal (s : String) : KeyAction
  deriving Repr, DecidableEq

/-- Key resolution shared by `simulateKeybind` and `pingDevice`: look the
lowercased key up in `keycodeMap`; with no entry, an `f`-prefixed key
fails (`none`), any other key becomes a literal keystroke. -/
def resolveKey (key : String) : Option KeyAction :=
  match keycodeMap (jsToLower key) with
  | some n => some (.code n)
  | none =>
    if jsStartsWithF (jsToLower key) then none
    else some (.literal key)

/-- Embeds the `modifierString` template: `" using {...}"` when the
modifier list is nonempty, empty otherwise. -/
def modifierString (modifiers : List String) : String :=
  if modifiers.length > 0 then " using \x7b" ++ ", ".intercalate modifiers ++ "\x7d"
  else ""

/-- Embeds the `keyCommand` construction combined with the unsupported
function-key check that precedes it: `key code <n><mods>` for a table
entry, `keystroke "<key>"<mods>` for a non-`f` literal, `none` when the
key is `f`-prefixed with no table entry. -/
def resolveKeyCommand (h : Hotkey) : Option String :=
  match keycodeMap (jsToLower h.key) with
  | some n => some ("key code " ++ toString n ++ modifierString h.modifiers)
  | none =>
    if jsStartsWithF (jsToLower h.key) then none
    else some ("keystroke \"" ++ h.key ++ "\"" ++ modifierString h.modifiers)

/-- Embeds the AppleScript template of `pingDevice` (lines 338-348)
verbatim, parameterized by the key command, the rendered delay and the
sanitized device name. -/
def pingScript (keyCommand delayStr sanitizedName : String) : String :=
  "\n    tell application \"System Events\"\n      " ++ keyCommand ++
  "\n    end tell\n    delay " ++ delayStr ++
  "\n    tell application \"System Events\"\n      keystroke \"ping my " ++ sanitizedName ++
  "\"\n      delay 0.3\n      key code 36\n    end tell\n  "

/-- A value thrown by the automation bridge.  `isError` models
`error instanceof Error`; `message` is meaningful only in that case. -/
structure JsThrown where
  isError : Bool
  message : String
  deriving Repr, DecidableEq

/-- Observable effects of `pingDevice`: user-facing toasts and
automation-bridge invocations. -/
inductive Effect where
  | toast (style title message : String) : Effect
  | bridge (script : String) : Effect
  deriving Repr, DecidableEq

/-- The script of a bridge effect, if any. -/
def bridgeScript : Effect → Option String
  | .toast _ _ _ => none
  | .bridge s => some s

/-- Embeds `pingDevice` (lines 297-362) as its trace of observable
effects, parameterized by the stored keybind, the rendered delay, the
device name, and the outcome of the single bridge call. -/
def pingDeviceRun (keybind delayStr deviceName : String)
    (bridgeResult : Except JsThrown Unit) : List Effect :=
  let p := parseHotkey keybind
  match resolveKeyCommand p with
  | none =>
    [.toast "failure" "Unsupported function key"
      (p.key ++ " is not supported. Only f13-f20 are supported.")]
  | some keyCommand =>
    [.toast "animated" "Pinging device..." deviceName,
     .bridge (pingScript keyCommand delayStr (sanitizeForAppleScript deviceName))] ++
    match bridgeResult with
    | .ok _ => [.toast "success" "Ping sent" deviceName]
    | .error e =>
      [.toast "failure" "Failed to ping device"
        (if e.isError then e.message else "Unknown error occurred")]

/-- Observable effects of `simulateKeybind`: closing the host window,
creating a toast, retitling it during the countdown, sleeping, hiding the
toast, and the automation-bridge invocation. -/
inductive SimEffect where
  | closeWindow : SimEffect
  | toast (style title : String) : SimEffect
  | setToastTitle (title : String) : SimEffect
  | sleep (ms : Nat) : SimEffect
  | hideToast : SimEffect
  | bridge (script : String) : SimEffect
  deriving Repr, DecidableEq

/-- The script of a simulate-side bridge effect, if any. -/
def simBridgeScript : SimEffect → Option String
  | .bridge s => some s
  | _ => none

/-- Embeds the AppleScript template of `simulateKeybind`
(lines 122-126) verbatim, parameterized by the key command. -/
def simulateScript (keyCommand : String) : String :=
  "\n  tell application \"System Events\"\n    " ++ keyCommand ++ "\n  end tell\n"

/-- The countdown loop of `simulateKeybind` (lines 115-118): for `i`
from 9 down to 0, retitle the toast and sleep one second. -/
def countdownEffects : List SimEffect :=
  (List.range 10).reverse.flatMap (fun i =>
    [.setToastTitle ("Simulating in " ++ toString (i + 1) ++ " seconds..."),
     .sleep 1000])

/-- Embeds `simulateKeybind` (lines 86-132) as its trace of observable
effects paired with the exception escaping to the caller, if any,
parameterized by the keybind string and the outcome of the single bridge
call.  The window is closed and the keybind parsed first; an `f`-prefixed
key with no key-code entry then throws a real `Error` (line 104) before
any further effect; otherwise the countdown runs, the bridge is invoked,
and a bridge exception propagates uncaught. -/
def simulateKeybindRun (keybindString : String)
    (bridgeResult : Except JsThrown Unit) : List SimEffect × Option JsThrown :=
  let p := parseHotkey keybindString
  match resolveKeyCommand p with
  | none =>
    ([.closeWindow],
     some ⟨true, "Unsupported function key: " ++ p.key ++
       ". Only f13-f20 are supported."⟩)
  | some keyCommand =>
    let pre : List SimEffect :=
      [.closeWindow, .toast "animated" "Simulating in 10 seconds..."] ++
      countdownEffects ++
      [.hideToast, .bridge (simulateScript keyCommand)]
    match bridgeResult with
    | .ok _ => (pre ++ [.toast "success" "Keybind simulated"], none)
    | .error e => (pre, some e)

/-! ### Device store (devices.tsx lines 279-295) -/

/-- A stored device record. -/
structure Device where
  id : String
  name : String
  icon : String
  deriving Repr, DecidableEq

/-- One user action on the device list.  `addDevice(name, icon)` draws
its `id` from `String(Date.now())` at call time, so the id is an explicit
input of the operation here. -/
inductive DevOp where
  | add (id name icon : String) : DevOp
  | remove (id : String) : DevOp
  deriving Repr, DecidableEq

/-- Embeds `addDevice` (append) and `removeDevice` (filter out the id). -/
def applyOp (devices : List Device) : DevOp → List Device
  | .add i n ic => devices ++ [⟨i, n, ic⟩]
  | .remove i => devices.filter (fun d => d.id ≠ i)

/-- Runs a sequence of device-list operations from a starting list. -/
def applyOps (devices : List Device) : List DevOp → List Device
  | [] => devices
  | op :: ops => applyOps (applyOp devices op) ops

/-- The devices added by a sequence of operations, in order. -/
def addedDevices : List DevOp → List Device
  | [] => []
  | .add i n ic :: ops => ⟨i, n, ic⟩ :: addedDevices ops
  | .remove _ :: ops => addedDevices ops

/-! ### Helper lemmas -/

theorem string_mk_inj {a b : List Char} : String.mk a = String.mk b ↔ a = b :=
  ⟨fun h => by injection h, fun h => by rw [h]⟩

theorem jsToLower_data (s : String) : (jsToLower s).data = s.data.map Char.toLower := rfl

theorem jsToLower_length (s : String) : (jsToLower s).length = s.length := by
  show (s.data.map Char.toLower).length = s.data.length
  exact List.length_map s.data Char.toLower

theorem jsTrim_eq_empty_iff (s : String) :
    jsTrim s = "" ↔ ∀ c ∈ s.data, Char.isWhitespace c := by
  unfold jsTrim
  rw [show ("" : String) = String.mk [] from rfl, string_mk_inj, List.reverse_eq_nil_iff,
    List.dropWhile_eq_nil_iff]
  constructor
  · intro h c hc
    rcases (List.mem_append.mp
        ((List.takeWhile_append_dropWhile (p := Char.isWhitespace) (l := s.data)) ▸ hc)) with
        h₁ | h₁
    · exact List.mem_takeWhile_imp h₁
    · exact h c (List.mem_reverse.mpr h₁)
  · intro h c hc
    exact h c ((List.dropWhile_sublist Char.isWhitespace).mem (List.mem_reverse.mp hc))

theorem supportedKeys_toLower_fixed : ∀ k ∈ supportedKeys, jsToLower k = k := by decide

theorem keycodeMap_isSome_of_supported : ∀ k ∈ supportedKeys, (keycodeMap k).isSome := by decide

theorem keycodeMap_eq_none_of_length_one (k : String) (h : k.length = 1) :
    keycodeMap k = none := by
  unfold keycodeMap
  split_ifs with h₁ h₂ h₃ h₄ h₅ h₆ h₇ h₈ <;> first
    | rfl
    | (subst_vars; exact absurd h (by decide))

/-! ### Claim theorems -/

/-- Claim C10: `sanitizeForAppleScript s` equals `s` with each backslash
and each double-quote character prefixed by a single backslash, every
other character (single quotes included) left unchanged; concretely,
`Bob's "phone"` becomes `Bob's \"phone\"`. -/
theorem sanitizeForAppleScript_spec :
    (∀ s : String, (sanitizeForAppleScript s).data =
        s.data.flatMap (fun c => if c = '\\' ∨ c = '"' then ['\\', c] else [c])) ∧
    sanitizeForAppleScript "Bob\x27s \"phone\"" = "Bob\x27s \\\"phone\\\"" := by
  constructor
  · intro s
    show sanitizeAux s.data = _
    induction s.data with
    | nil => rfl
    | cons c cs ih =>
      by_cases h : c = '\\' ∨ c = '"' <;> simp [sanitizeAux, h, ih]
  · decide

/-- Claim C6: `parseHotkey` splits on `+`; the final token is the key and
each preceding token is mapped through the fixed table `cmd→command`,
`ctrl→control`, `opt→option`, `shift→shift`, unrecognized tokens passing
through unchanged (the code renders each mapped modifier with an appended
`" down"`); `parseHotkey "cmd+shift+f14"` yields modifiers
`command`/`shift` and key `f14`. -/
theorem parseHotkey_spec :
    (∀ s : String, parseHotkey s =
        ⟨(jsSplit s).getLastD "",
         ((jsSplit s).dropLast).map (fun m => canonicalModifier m ++ " down")⟩) ∧
    canonicalModifier "cmd" = "command" ∧
    canonicalModifier "ctrl" = "control" ∧
    canonicalModifier "opt" = "option" ∧
    canonicalModifier "shift" = "shift" ∧
    (∀ m : String, m ∉ ["cmd", "ctrl", "opt", "shift"] → canonicalModifier m = m) ∧
    parseHotkey "cmd+shift+f14" = ⟨"f14", ["command down", "shift down"]⟩ := by
  refine ⟨fun s => rfl, rfl, rfl, rfl, rfl, ?_, by decide⟩
  intro m hm
  unfold canonicalModifier modifierMap
  split_ifs with h₁ h₂ h₃ h₄ <;> simp_all

/-- Witness for C6: the passthrough branch at the unrecognized token
`"xyz"`, and the general shape at `"cmd+x"`. -/
theorem parseHotkey_spec_witness :
    canonicalModifier "xyz" = "xyz" ∧
    parseHotkey "cmd+x" =
      ⟨(jsSplit "cmd+x").getLastD "",
       ((jsSplit "cmd+x").dropLast).map (fun m => canonicalModifier m ++ " down")⟩ :=
  ⟨parseHotkey_spec.2.2.2.2.2.1 "xyz" (by decide), parseHotkey_spec.1 "cmd+x"⟩

/-- Claim C7: the modifier table of `parseHotkey` matches exactly and
case-sensitively, while `validateKeybind` lowercases before comparing; so
the validated string `"CMD+f13"` parses to the modifier token `CMD`
(rendered `"CMD down"`), which is outside the four canonical modifier
names. -/
theorem parseHotkey_case_sensitive :
    (∀ m : String, m ∉ ["cmd", "ctrl", "opt", "shift"] → canonicalModifier m = m) ∧
    validateKeybind "CMD+f13" = none ∧
    (parseHotkey "CMD+f13").modifiers = ["CMD down"] ∧
    canonicalModifier "CMD" = "CMD" ∧
    "CMD" ∉ ["command", "control", "option", "shift"] := by
  refine ⟨?_, by decide, by decide, by decide, by decide⟩
  intro m hm
  unfold canonicalModifier modifierMap
  split_ifs with h₁ h₂ h₃ h₄ <;> simp_all

/-- Witness for C7: the case-sensitivity branch applied at `"CMD"`. -/
theorem parseHotkey_case_sensitive_witness : canonicalModifier "CMD" = "CMD" :=
  parseHotkey_case_sensitive.1 "CMD" (by decide)

/-- Claim C8: `validateDelay value` errors exactly when `value` does not
parse as a number, parses negative, or parses above `10`; concretely
`"1"` passes while `"-1"`, `"11"` and `"abc"` fail. -/
theorem validateDelay_spec :
    (∀ s : String, (validateDelay s).isSome ↔
        (jsParseFloat s = none ∨ ∃ q : ℚ, jsParseFloat s = some q ∧ (q < 0 ∨ q > 10))) ∧
    validateDelay "1" = none ∧
    validateDelay "-1" = some "Delay cannot be negative" ∧
    validateDelay "11" = some "Delay cannot exceed 10 seconds" ∧
    validateDelay "abc" = some "Delay must be a number" := by
  refine ⟨?_, by decide, by decide, by decide, by decide⟩
  intro s
  unfold validateDelay
  cases h : jsParseFloat s with
  | none => simp
  | some q =>
    dsimp only
    split_ifs with h₁ h₂ <;> simp_all

/-- Witness for C8: the characterization applied at `"5.5"`, whose parse
is in range. -/
theorem validateDelay_spec_witness : ¬ (validateDelay "5.5").isSome := by
  rw [validateDelay_spec.1 "5.5"]
  push_neg
  refine ⟨by decide, ?_⟩
  intro q hq
  rw [show jsParseFloat "5.5" = some (mkRat 11 2) from by decide] at hq
  cases hq
  exact ⟨by decide, by decide⟩

/-- Claim C9: `validateDeviceName name` errors exactly when `name` is
empty or whitespace-only, longer than 50 characters, or contains a double
quote, semicolon or backslash; concretely the empty string, a
51-character string and a name with a double quote fail, while
`Sophie's iPhone` passes. -/
theorem validateDeviceName_spec :
    (∀ n : String, (validateDeviceName n).isSome ↔
        ((∀ c ∈ n.data, Char.isWhitespace c) ∨ n.length > 50 ∨
          ∃ c ∈ n.data, badNameChar c)) ∧
    validateDeviceName "" = some "Name required" ∧
    validateDeviceName (String.mk (List.replicate 51 'a')) = some "Name too long" ∧
    validateDeviceName "Sophie\x27s iPhone" = none ∧
    validateDeviceName "Sophie\"s" = some "Invalid characters" := by
  refine ⟨?_, by decide, by decide, by decide, by decide⟩
  intro n
  unfold validateDeviceName
  split_ifs with h₁ h₂ h₃ <;>
    simp_all [jsTrim_eq_empty_iff, List.any_eq_true]

/-- Witness for C9: the characterization applied at `"  "`, which is
whitespace-only. -/
theorem validateDeviceName_spec_witness : (validateDeviceName "  ").isSome :=
  (validateDeviceName_spec.1 "  ").mpr (Or.inl (by decide))

/-- Claim C2: `validateKeybind` errors on the empty string and on every
string with fewer than two `+`-separated tokens; errors naming the bad
modifier whenever some modifier token is unrecognized (its lowercase form
outside `cmd`/`ctrl`/`opt`/`shift`); accepts every string (of at least
two tokens) whose modifier tokens are all recognized and whose final
token is in `f13`–`f20` or one character long; concretely `"cmd+f13"`
passes while `"f13"` and `"cmd+f21"` fail. -/
theorem validateKeybind_spec :
    (validateKeybind "").isSome ∧
    (∀ s : String, (jsSplit s).length < 2 → (validateKeybind s).isSome) ∧
    (∀ s : String, (∃ m ∈ (jsSplit s).dropLast, jsToLower m ∉ validModifiers) →
        ∃ m ∈ (jsSplit s).dropLast, jsToLower m ∉ validModifiers ∧
          validateKeybind s = some ("Invalid modifier: " ++ m)) ∧
    (∀ s : String, 2 ≤ (jsSplit s).length →
        (∀ m ∈ (jsSplit s).dropLast, jsToLower m ∈ validModifiers) →
        ((jsSplit s).getLastD "" ∈ supportedKeys ∨ ((jsSplit s).getLastD "").length = 1) →
        validateKeybind s = none) ∧
    validateKeybind "cmd+f13" = none ∧
    (validateKeybind "f13").isSome ∧
    (validateKeybind "cmd+f21").isSome := by
  refine ⟨by decide, ?_, ?_, ?_, by decide, by decide, by decide⟩
  · intro s h
    by_cases hs : s = ""
    · subst hs; decide
    · simp only [validateKeybind]
      rw [if_neg hs, if_pos h]
      rfl
  · intro s h
    obtain ⟨m, hm, hbad⟩ := h
    have hs : s ≠ "" := by
      rintro rfl
      rw [show ((jsSplit "").dropLast) = [] from rfl] at hm
      exact (List.not_mem_nil m) hm
    have hlen : ¬ (jsSplit s).length < 2 := by
      have h1 : (jsSplit s).dropLast ≠ [] := List.ne_nil_of_mem hm
      have h2 : (jsSplit s).dropLast.length = (jsSplit s).length - 1 := by simp
      have h3 : 0 < (jsSplit s).dropLast.length := List.length_pos.mpr h1
      omega
    have hsome :
        (((jsSplit s).dropLast).find? (fun m => !(validModifiers.contains (jsToLower m)))).isSome := by
      rw [List.find?_isSome]
      exact ⟨m, hm, by simp [List.contains, List.elem_iff, hbad]⟩
    obtain ⟨m₀, hfind⟩ := Option.isSome_iff_exists.mp hsome
    have hm₀mem : m₀ ∈ (jsSplit s).dropLast := List.mem_of_find?_eq_some hfind
    have hm₀bad : jsToLower m₀ ∉ validModifiers := by
      have hp := List.find?_some hfind
      simpa [List.contains, List.elem_iff] using hp
    refine ⟨m₀, hm₀mem, hm₀bad, ?_⟩
    simp only [validateKeybind]
    rw [if_neg hs, if_neg hlen, hfind]
  · intro s h2 hmods hkey
    have hs : s ≠ "" := by
      rintro rfl
      rw [show (jsSplit "").length = 1 from rfl] at h2
      omega
    have hfind :
        (((jsSplit s).dropLast).find? (fun m => !(validModifiers.contains (jsToLower m)))) = none := by
      rw [List.find?_eq_none]
      intro m hm
      simp [List.contains, List.elem_iff, hmods m hm]
    simp only [validateKeybind]
    rw [if_neg hs, if_neg (by omega : ¬ (jsSplit s).length < 2), hfind]
    have hcond :
        (!(supportedKeys.contains (jsToLower ((jsSplit s).getLastD ""))) &&
          (jsToLower ((jsSplit s).getLastD "")).length != 1) = false := by
      rcases hkey with hk | hk
      · rw [supportedKeys_toLower_fixed _ hk]
        simp only [List.getLastD_eq_getLast?] at hk
        simp [List.contains, List.elem_iff, hk]
      · have hl : (jsToLower ((jsSplit s).getLastD "")).length = 1 := by
          rw [jsToLower_length]; exact hk
        simp only [List.getLastD_eq_getLast?] at hl
        simp [hl]
    rw [hcond]
    rfl

/-- Witness for C2: the fewer-than-two-tokens branch at `"abc"`, the
bad-modifier branch at `"win+f13"`, and the acceptance branch at
`"shift+f20"`. -/
theorem validateKeybind_spec_witness :
    (validateKeybind "abc").isSome ∧
    (∃ m ∈ (jsSplit "win+f13").dropLast, jsToLower m ∉ validModifiers ∧
      validateKeybind "win+f13" = some ("Invalid modifier: " ++ m)) ∧
    validateKeybind "shift+f20" = none :=
  ⟨validateKeybind_spec.2.1 "abc" (by decide),
   validateKeybind_spec.2.2.1 "win+f13" ⟨"win", by decide, by decide⟩,
   validateKeybind_spec.2.2.2.1 "shift+f20" (by decide) (by decide) (Or.inl (by decide))⟩

/-- Counterexample for C1: the keybind `"cmd+f"` passes `validateKeybind`
(its key is a single character) yet its key fails to resolve during
simulation, because the lowercased key `"f"` has no key-code entry and is
`f`-prefixed. -/
theorem validated_keybind_can_fail_to_resolve :
    validateKeybind "cmd+f" = none ∧ resolveKey (parseHotkey "cmd+f").key = none := by
  decide

/-- Claim C1 (amended): for every keybind string accepted by
`validateKeybind` whose final token does not lowercase to the bare letter
`f`, the parsed key resolves to either a known function-key code from the
`f13`–`f20` table or a single-character literal sent as a keystroke. -/
theorem validated_keybind_resolves (s : String)
    (hv : validateKeybind s = none)
    (hf : jsToLower (parseHotkey s).key ≠ "f") :
    (∃ n, keycodeMap (jsToLower (parseHotkey s).key) = some n ∧
        resolveKey (parseHotkey s).key = some (.code n)) ∨
    (resolveKey (parseHotkey s).key = some (.literal (parseHotkey s).key) ∧
      (parseHotkey s).key.length = 1) := by
  have hkeydef : (parseHotkey s).key = (jsSplit s).getLastD "" := rfl
  by_cases hs : s = ""
  · subst hs; exact absurd hv (by decide)
  · simp only [validateKeybind] at hv
    rw [if_neg hs] at hv
    by_cases hlen : (jsSplit s).length < 2
    · rw [if_pos hlen] at hv; exact absurd hv (by simp)
    · rw [if_neg hlen] at hv
      cases hfind : ((jsSplit s).dropLast).find?
          (fun m => !(validModifiers.contains (jsToLower m))) with
      | some m => rw [hfind] at hv; exact absurd hv (by simp)
      | none =>
        rw [hfind] at hv
        have hcond :
            (!(supportedKeys.contains (jsToLower ((jsSplit s).getLastD ""))) &&
              (jsToLower ((jsSplit s).getLastD "")).length != 1) = false := by
          by_contra hcontra
          rw [if_pos (by revert hcontra; cases h :
            (!(supportedKeys.contains (jsToLower ((jsSplit s).getLastD ""))) &&
              (jsToLower ((jsSplit s).getLastD "")).length != 1) <;> simp)] at hv
          exact absurd hv (by simp)
        have hkey : jsToLower ((jsSplit s).getLastD "") ∈ supportedKeys ∨
            (jsToLower ((jsSplit s).getLastD "")).length = 1 := by
          rcases Bool.and_eq_false_iff.mp hcond with h | h
          · left
            have : supportedKeys.contains (jsToLower ((jsSplit s).getLastD "")) = true := by
              revert h; cases supportedKeys.contains (jsToLower ((jsSplit s).getLastD "")) <;> simp
            simpa [List.contains, List.elem_iff] using this
          · right
            revert h
            cases hne : ((jsToLower ((jsSplit s).getLastD "")).length == 1) <;>
              simp_all [Nat.beq_eq_true_eq]
        rw [hkeydef]
        rcases hkey with hk | hk
        · left
          obtain ⟨n, hn⟩ := Option.isSome_iff_exists.mp (keycodeMap_isSome_of_supported _ hk)
          refine ⟨n, hn, ?_⟩
          unfold resolveKey
          rw [hn]
        · right
          have hmapnone : keycodeMap (jsToLower ((jsSplit s).getLastD "")) = none :=
            keycodeMap_eq_none_of_length_one _ hk
          have hnostart : jsStartsWithF (jsToLower ((jsSplit s).getLastD "")) = false := by
            obtain ⟨c, hc⟩ := List.length_eq_one.mp
              (show (jsToLower ((jsSplit s).getLastD "")).data.length = 1 from hk)
            have hcf : c ≠ 'f' := by
              intro hcf
              apply hf
              rw [hkeydef]
              show String.mk (jsToLower ((jsSplit s).getLastD "")).data = "f"
              rw [hc, hcf]
            unfold jsStartsWithF
            rw [hc]
            simpa using hcf
          constructor
          · unfold resolveKey
            rw [hmapnone, hnostart]
            rfl
          · rw [jsToLower_length] at hk
            exact hk

/-- Witness for C1 (amended): the accepted keybind `"cmd+f13"` resolves
to key code 105. -/
theorem validated_keybind_resolves_witness :
    (∃ n, keycodeMap (jsToLower (parseHotkey "cmd+f13").key) = some n ∧
        resolveKey (parseHotkey "cmd+f13").key = some (.code n)) ∨
    (resolveKey (parseHotkey "cmd+f13").key =
        some (.literal (parseHotkey "cmd+f13").key) ∧
      (parseHotkey "cmd+f13").key.length = 1) :=
  validated_keybind_resolves "cmd+f13" (by decide) (by decide)

/-- Claim C3: when the keybind resolves to a key command `K`, the single
script sent to the automation bridge by `pingDevice` is exactly
`tell application "System Events" / K / end tell`, then `delay d`, then
`tell application "System Events" / keystroke "ping my D" / delay 0.3 /
key code 36 / end tell` for the sanitized name `D`, with nonempty
modifier lists rendered as `using {...}`. -/
theorem pingDevice_script_shape (keybind delayStr deviceName K : String)
    (br : Except JsThrown Unit)
    (hres : resolveKeyCommand (parseHotkey keybind) = some K) :
    (pingDeviceRun keybind delayStr deviceName br).filterMap bridgeScript =
      ["\n    tell application \"System Events\"\n      " ++ K ++
       "\n    end tell\n    delay " ++ delayStr ++
       "\n    tell application \"System Events\"\n      keystroke \"ping my " ++
       sanitizeForAppleScript deviceName ++
       "\"\n      delay 0.3\n      key code 36\n    end tell\n  "] ∧
    (∀ mods : List String, mods ≠ [] →
        modifierString mods = " using \x7b" ++ ", ".intercalate mods ++ "\x7d") := by
  constructor
  · unfold pingDeviceRun
    dsimp only
    rw [hres]
    cases br <;> simp [bridgeScript, pingScript, List.filterMap]
  · intro mods h
    unfold modifierString
    rw [if_pos (List.length_pos.mpr h)]

/-- Witness for C3: the script sent for keybind `"cmd+f13"`, delay `"1"`
and device `"iPhone"`. -/
theorem pingDevice_script_shape_witness :
    (pingDeviceRun "cmd+f13" "1" "iPhone" (.ok ())).filterMap bridgeScript =
      ["\n    tell application \"System Events\"\n      " ++
       "key code 105 using \x7bcommand down\x7d" ++
       "\n    end tell\n    delay " ++ "1" ++
       "\n    tell application \"System Events\"\n      keystroke \"ping my " ++
       sanitizeForAppleScript "iPhone" ++
       "\"\n      delay 0.3\n      key code 36\n    end tell\n  "] :=
  (pingDevice_script_shape "cmd+f13" "1" "iPhone"
    "key code 105 using \x7bcommand down\x7d" (.ok ()) (by decide)).1

/-- Claim C5: in both ping/simulate actions, an `f`-prefixed key with no
entry in the `f13`–`f20` table is reported before any automation-bridge
call is issued — `pingDevice` toasts an `Unsupported function key`
failure naming the key, and `simulateKeybind` throws an `Error` naming
the key right after closing the window, with no bridge effect in either
trace; and a failing bridge call in `pingDevice` is surfaced as a
`Failed to ping device` notification carrying the thrown `Error`'s own
message, or `Unknown error occurred` for a non-`Error` value. -/
theorem pingDevice_error_handling (keybind delayStr deviceName : String) :
    (∀ br : Except JsThrown Unit, resolveKeyCommand (parseHotkey keybind) = none →
        pingDeviceRun keybind delayStr deviceName br =
          [.toast "failure" "Unsupported function key"
            ((parseHotkey keybind).key ++ " is not supported. Only f13-f20 are supported.")] ∧
        ∀ e ∈ pingDeviceRun keybind delayStr deviceName br, bridgeScript e = none) ∧
    (resolveKeyCommand (parseHotkey keybind) = none ↔
        keycodeMap (jsToLower (parseHotkey keybind).key) = none ∧
        jsStartsWithF (jsToLower (parseHotkey keybind).key) = true) ∧
    (∀ K : String, ∀ e : JsThrown, resolveKeyCommand (parseHotkey keybind) = some K →
        pingDeviceRun keybind delayStr deviceName (.error e) =
          [.toast "animated" "Pinging device..." deviceName,
           .bridge (pingScript K delayStr (sanitizeForAppleScript deviceName)),
           .toast "failure" "Failed to ping device"
             (if e.isError then e.message else "Unknown error occurred")]) ∧
    (∀ br : Except JsThrown Unit, resolveKeyCommand (parseHotkey keybind) = none →
        simulateKeybindRun keybind br =
          ([.closeWindow],
           some ⟨true, "Unsupported function key: " ++ (parseHotkey keybind).key ++
             ". Only f13-f20 are supported."⟩) ∧
        ∀ e ∈ (simulateKeybindRun keybind br).1, simBridgeScript e = none) := by
  refine ⟨?_, ?_, ?_, ?_⟩
  · intro br hres
    constructor
    · unfold pingDeviceRun
      dsimp only
      rw [hres]
    · intro e he
      unfold pingDeviceRun at he
      dsimp only at he
      rw [hres] at he
      simp only [List.mem_singleton] at he
      rw [he]
      rfl
  · unfold resolveKeyCommand
    cases h : keycodeMap (jsToLower (parseHotkey keybind).key) with
    | some n => simp [h]
    | none =>
      cases hst : jsStartsWithF (jsToLower (parseHotkey keybind).key) <;>
        simp [h, hst]
  · intro K e hres
    unfold pingDeviceRun
    dsimp only
    rw [hres]
    rfl
  · intro br hres
    have htr : simulateKeybindRun keybind br =
        ([.closeWindow],
         some ⟨true, "Unsupported function key: " ++ (parseHotkey keybind).key ++
           ". Only f13-f20 are supported."⟩) := by
      unfold simulateKeybindRun
      dsimp only
      rw [hres]
    refine ⟨htr, ?_⟩
    intro e he
    rw [htr] at he
    simp only [List.mem_singleton] at he
    rw [he]
    rfl

/-- Witness for C5: the unsupported key `"cmd+f21"` produces only
`pingDevice`'s pre-flight failure toast and only `simulateKeybind`'s
close-window effect followed by the thrown `Error`, and a thrown `Error`
with message `boom` during `"cmd+f13"` is surfaced with that message. -/
theorem pingDevice_error_handling_witness :
    pingDeviceRun "cmd+f21" "1" "iPhone" (.ok ()) =
      [.toast "failure" "Unsupported function key"
        ((parseHotkey "cmd+f21").key ++ " is not supported. Only f13-f20 are supported.")] ∧
    pingDeviceRun "cmd+f13" "1" "iPhone" (.error ⟨true, "boom"⟩) =
      [.toast "animated" "Pinging device..." "iPhone",
       .bridge (pingScript "key code 105 using \x7bcommand down\x7d" "1"
         (sanitizeForAppleScript "iPhone")),
       .toast "failure" "Failed to ping device"
         (if (⟨true, "boom"⟩ : JsThrown).isError then (⟨true, "boom"⟩ : JsThrown).message
          else "Unknown error occurred")] ∧
    simulateKeybindRun "cmd+f21" (.ok ()) =
      ([.closeWindow],
       some ⟨true, "Unsupported function key: " ++ (parseHotkey "cmd+f21").key ++
         ". Only f13-f20 are supported."⟩) :=
  ⟨((pingDevice_error_handling "cmd+f21" "1" "iPhone").1 (.ok ()) (by decide)).1,
   (pingDevice_error_handling "cmd+f13" "1" "iPhone").2.2.1
     "key code 105 using \x7bcommand down\x7d" ⟨true, "boom"⟩ (by decide),
   ((pingDevice_error_handling "cmd+f21" "1" "iPhone").2.2.2 (.ok ()) (by decide)).1⟩

/-- Counterexample for C4: two `addDevice` calls in the same millisecond
draw the same `Date.now()` id, so the reachable list
`[add "0" "A", add "0" "B"]` applied to the empty list carries a
duplicated device id. -/
theorem device_ids_can_collide :
    applyOps [] [.add "0" "A" "Iphone.png", .add "0" "B" "Iphone.png"] =
      [⟨"0", "A", "Iphone.png"⟩, ⟨"0", "B", "Iphone.png"⟩] ∧
    ¬ ((applyOps [] [.add "0" "A" "Iphone.png", .add "0" "B" "Iphone.png"]).map
        Device.id).Nodup := by
  decide

/-- Claim C4 (amended): in every list reachable from the empty list by
`addDevice`/`removeDevice` operations, the list is an order-preserving
subsequence of the devices in insertion order, and provided the
`Date.now()`-derived ids of the `addDevice` calls are pairwise distinct,
the device ids in the list are unique. -/
theorem device_list_invariant (ops : List DevOp)
    (h : ((addedDevices ops).map Device.id).Nodup) :
    List.Sublist (applyOps [] ops) (addedDevices ops) ∧
    ((applyOps [] ops).map Device.id).Nodup := by
  have key : ∀ (ops : List DevOp) (l : List Device),
      List.Sublist (applyOps l ops) (l ++ addedDevices ops) := by
    intro ops
    induction ops with
    | nil => intro l; simp [applyOps, addedDevices]
    | cons op rest ih =>
      intro l
      cases op with
      | add i n ic =>
        have := ih (l ++ [⟨i, n, ic⟩])
        simpa [applyOps, applyOp, addedDevices] using this
      | remove i =>
        refine List.Sublist.trans (ih (l.filter (fun d => d.id ≠ i))) ?_
        show List.Sublist _ (l ++ addedDevices (DevOp.remove i :: rest))
        have hf : List.Sublist (l.filter (fun d => d.id ≠ i)) l :=
          List.filter_sublist l
        show List.Sublist _ (l ++ addedDevices rest)
        exact List.Sublist.append hf (List.Sublist.refl _)
  have hsub : List.Sublist (applyOps [] ops) (addedDevices ops) := key ops []
  exact ⟨hsub, h.sublist (hsub.map Device.id)⟩

/-- Witness for C4 (amended): adding two devices with distinct ids and
removing the first leaves a subsequence of the insertions with unique
ids. -/
theorem device_list_invariant_witness :
    List.Sublist (applyOps [] [.add "1" "A" "Iphone.png", .add "2" "B" "Iphone.png", .remove "1"])
      (addedDevices [.add "1" "A" "Iphone.png", .add "2" "B" "Iphone.png", .remove "1"]) ∧
    ((applyOps [] [.add "1" "A" "Iphone.png", .add "2" "B" "Iphone.png", .remove "1"]).map
        Device.id).Nodup :=
  device_list_invariant [.add "1" "A" "Iphone.png", .add "2" "B" "Iphone.png", .remove "1"]
    (by decide)

end FindMyPing
